import Mathlib

/-
Verification development for the note-dashboard extraction core
(src/scraper.py).  The Python code is shallowly embedded: Python int is
modelled as Int, str as String (operated on through its character list),
and the browser/page state as explicit environment records.  Python
floats are modelled as exact scaled integers (mantissa, decimal
exponent); IEEE rounding of extreme-precision literals is outside the
model, as are underscored digit groups and non-ASCII digits in numeric
literals.  Exceptions are modelled with Option / explicit outcome codes.
-/

namespace NoteScraper

/-- Model of the record built by Article.__init__ in scraper.py.
Fields default to 0 / empty exactly as in the constructor. -/
structure ArticleR where
  title : String
  url : String
  published_at : String
  views : Int
  likes : Int
  comments : Int
  text_content : String
  char_count : Int

deriving instance DecidableEq, Inhabited for ArticleR

/-- Article.__init__: the three constructor arguments, all metric fields 0,
body text empty. -/
def mkArticle (title url published_at : String) : ArticleR :=
  { title := title, url := url, published_at := published_at,
    views := 0, likes := 0, comments := 0, text_content := "", char_count := 0 }

/-- Whitespace predicate used to model Python str.strip (ASCII whitespace). -/
def isPySpace (c : Char) : Bool := c.isWhitespace

/-- Model of str.strip with no arguments, on the character list. -/
def pyStrip (cs : List Char) : List Char :=
  ((cs.dropWhile isPySpace).reverse.dropWhile isPySpace).reverse

/-- str.strip on a String. -/
def pyStripS (s : String) : String := ⟨pyStrip s.data⟩

/-- Model of str.lower, ASCII letters only. -/
def pyToLower (c : Char) : Char := c.toLower

/-- Optional leading sign of a numeric literal: returns the sign factor and
the remaining characters. -/
def pullSign (cs : List Char) : Int × List Char :=
  match cs with
  | '+' :: r => (1, r)
  | '-' :: r => (-1, r)
  | _ => (1, cs)

/-- Value of a digit string, most significant first. -/
def digitsToNat (ds : List Char) : Nat :=
  ds.foldl (fun n c => n * 10 + (c.toNat - 48)) 0

/-- Exponent part of a float literal after the letter e: optional sign then
at least one digit and nothing else. -/
def expValue (cs : List Char) : Option Int :=
  let p := pullSign cs
  let ds := p.2.takeWhile Char.isDigit
  if ds = [] then none
  else if p.2.dropWhile Char.isDigit ≠ [] then none
  else some (p.1 * (digitsToNat ds : Int))

/-- Model of Python float(text) restricted to finite decimal literals:
optional sign, digits with an optional fractional part (at least one digit
overall), optional exponent.  The value is m * 10 ^ e for the returned
pair (m, e).  Any other shape fails (models ValueError, and also the
infinity / nan shapes whose int() conversion raises in the caller). -/
def floatParse (cs : List Char) : Option (Int × Int) :=
  let p := pullSign cs
  let ip := p.2.takeWhile Char.isDigit
  let r1 := p.2.dropWhile Char.isDigit
  let fr :=
    match r1 with
    | '.' :: r => (r.takeWhile Char.isDigit, r.dropWhile Char.isDigit)
    | _ => (([] : List Char), r1)
  if ip = [] ∧ fr.1 = [] then none
  else
    match fr.2 with
    | [] => some (p.1 * (digitsToNat (ip ++ fr.1) : Int), -(fr.1.length : Int))
    | 'e' :: r3 =>
        (expValue r3).map (fun ex => (p.1 * (digitsToNat (ip ++ fr.1) : Int), ex - (fr.1.length : Int)))
    | 'E' :: r3 =>
        (expValue r3).map (fun ex => (p.1 * (digitsToNat (ip ++ fr.1) : Int), ex - (fr.1.length : Int)))
    | _ => none

/-- The preprocessing phase of NoteDashboardScraper._parse_number:
strip, lower, detect the k / m unit anywhere in the text (k checked first),
remove every occurrence of the unit letter, then remove commas.  Returns
the multiplier and the remaining characters handed to float(). -/
def preprocessNum (text : String) : Int × List Char :=
  let t := (pyStrip text.data).map pyToLower
  let mt :=
    if 'k' ∈ t then ((1000 : Int), t.filter (fun c => c ≠ 'k'))
    else if 'm' ∈ t then ((1000000 : Int), t.filter (fun c => c ≠ 'm'))
    else (1, t)
  (mt.1, mt.2.filter (fun c => c ≠ ','))

/-- int(float(cs) * mult) with truncation toward zero; a failed float parse
yields 0 (the bare except branch). -/
def applyFloat (mult : Int) (cs : List Char) : Int :=
  match floatParse cs with
  | none => 0
  | some me =>
    let v := me.1 * mult
    if 0 ≤ me.2 then v * (10 : Int) ^ me.2.toNat
    else v.tdiv ((10 : Int) ^ (-me.2).toNat)

/-- Model of NoteDashboardScraper._parse_number. -/
def parse_number (text : String) : Int :=
  if text = "" then 0
  else
    let mc := preprocessNum text
    applyFloat mc.1 mc.2

/-! Listing extraction (extract_articles_from_current_page).  The browser
page is an environment: the scripted tier-1 query either raises (none),
returns a row list, or returns the empty list which sends the code to the
tier-2 table fallback. -/

/-- One raw row produced by the tier-1 scripted query: the six string
fields pushed by the embedded script. -/
structure RawRow where
  title : String
  url : String
  published_at : String
  views : String
  likes : String
  comments : String

deriving instance DecidableEq for RawRow

/-- One body row of the tier-2 table fallback.  linkText is none when the
row has no first td cell or no anchor inside it (the row is skipped);
linkHref none models get_attribute returning None.  tds gives the text of
the td cell at an index, none when the cell is missing or unreadable. -/
structure FRow where
  linkText : Option String
  linkHref : Option String
  tds : Nat → Option String

/-- The listing-page environment: tier-1 scripted rows (none = the script
call raised), whether any table selector matched, and the fallback rows. -/
structure PageEnv where
  jsRows : Option (List RawRow)
  tableFound : Bool
  frows : List FRow

/-- Tier-1 mapping of a raw row into a record (lines 497-506). -/
def rawRowToArticle (r : RawRow) : ArticleR :=
  let a := mkArticle r.title r.url r.published_at
  { a with
      views := parse_number r.views,
      likes := parse_number r.likes,
      comments := parse_number r.comments }

/-- Tier-2 mapping of a fallback table row: a row without a title link is
skipped; each further column is independently best effort. -/
def frowToArticle (r : FRow) : Option ArticleR :=
  match r.linkText with
  | none => none
  | some t =>
    let a := mkArticle (pyStripS t) (r.linkHref.getD "")
      (((r.tds 2).map pyStripS).getD "")
    some { a with
        views := match r.tds 3 with | some s => parse_number s | none => a.views,
        likes := match r.tds 4 with | some s => parse_number s | none => a.likes,
        comments := match r.tds 5 with | some s => parse_number s | none => a.comments }

/-- Model of extract_articles_from_current_page: tier-1 scripted rows when
non-empty, otherwise the table fallback; any raised error yields []. -/
def extract_articles_from_current_page (env : PageEnv) : List ArticleR :=
  match env.jsRows with
  | none => []
  | some (r :: rs) => (r :: rs).map rawRowToArticle
  | some [] =>
    if env.tableFound then env.frows.filterMap frowToArticle else []

/-! Detail enrichment (get_article_details).  A detail-page environment
says, per CSS selector string, whether find_element found an element,
found nothing (NoSuchElementException), or raised some other error which
aborts the enclosing per-field try block. -/

/-- A located page element: its text and its datetime attribute. -/
structure Elem where
  text : String
  datetimeAttr : Option String

deriving instance DecidableEq for Elem

/-- Outcome of find_element for one selector. -/
inductive FindRes where
  | found : Elem → FindRes
  | missing : FindRes
  | err : FindRes

deriving instance DecidableEq for FindRes

/-- Detail-page environment: navigation success, the selector oracle, and
the three scripted fallback results (empty string models both a miss and
a raised script call, which leave the field unchanged alike). -/
structure DetailEnv where
  navOk : Bool
  find : String → FindRes
  jsDate : String
  jsBody : String
  jsViews : String

/-- The date selector list of get_article_details. -/
def publication_date_selectors : List String :=
  [".o-noteContentHeader__date time", ".o-noteContentHeader time",
   ".m-article__date time", ".note-common-styles__date time", "time",
   "[datetime]", ".o-noteContentData__date"]

/-- The body selector list of get_article_details. -/
def article_body_selectors : List String :=
  [".note-common-styles__textnote-body", ".o-noteContentText",
   "article .o-noteEmbedContainer", ".m-textContent", "article .note-body"]

/-- The view-count selector list of get_article_details. -/
def view_count_selectors : List String :=
  [".o-noteContentData .viewCount", ".o-noteContentData__item--views",
   ".noteStat span[data-test='viewCount']", ".viewCountText",
   "span[title*='閲覧']", ".o-noteContentStats__count",
   ".m-noteContent__viewCount", ".o-noteContentData__viewCount",
   "span[title*='view']", ".viewCount", ".o-noteContentFooter .count",
   "div[class*='viewCount']"]

/-- Candidate date value of one located element: stripped text, else the
datetime attribute when that text is empty and the attribute non-empty. -/
def dateCandidate (e : Elem) : String :=
  let pa := pyStripS e.text
  if pa = "" then
    match e.datetimeAttr with
    | some d => d
    | none => ""
  else pa

/-- Structured date loop: outer none = a non-miss error aborted the whole
date block; some none = every candidate missed or was empty; some (some v)
= first non-empty candidate value. -/
def dateLoop (find : String → FindRes) : List String → Option (Option String)
  | [] => some none
  | s :: rest =>
    match find s with
    | .err => none
    | .missing => dateLoop find rest
    | .found e =>
      let v := dateCandidate e
      if v = "" then dateLoop find rest else some (some v)

/-- Publish-date resolution of get_article_details: structured loop, then
the scripted fallback only while published_at is still empty. -/
def resolveDate (env : DetailEnv) (a : ArticleR) : ArticleR :=
  match dateLoop env.find publication_date_selectors with
  | none => a
  | some (some v) => { a with published_at := v }
  | some none =>
    if a.published_at = "" then
      if env.jsDate ≠ "" then { a with published_at := env.jsDate } else a
    else a

/-- Structured body loop: the first found element wins, its text taken as
is (even when empty); outer none = aborting error. -/
def bodyLoop (find : String → FindRes) : List String → Option (Option String)
  | [] => some none
  | s :: rest =>
    match find s with
    | .err => none
    | .missing => bodyLoop find rest
    | .found e => some (some e.text)

/-- Scripted body fallback: a non-empty result sets text and length
together. -/
def bodyJs (env : DetailEnv) (a : ArticleR) : ArticleR :=
  if env.jsBody ≠ "" then
    { a with text_content := env.jsBody, char_count := (env.jsBody.length : Int) }
  else a

/-- Body resolution of get_article_details: structured loop sets text and
char count together; the scripted fallback runs only while text_content is
still empty. -/
def resolveBody (env : DetailEnv) (a : ArticleR) : ArticleR :=
  match bodyLoop env.find article_body_selectors with
  | none => a
  | some (some t) =>
    let a1 := { a with text_content := t, char_count := (t.length : Int) }
    if a1.text_content = "" then bodyJs env a1 else a1
  | some none =>
    if a.text_content = "" then bodyJs env a else a

/-- Structured views loop: each found element overwrites views with the
parse of its stripped text, stopping once positive; the second component
is true when an error aborted the block (prior overwrites persist and the
scripted fallback is skipped). -/
def viewsLoop (find : String → FindRes) : List String → Int → Int × Bool
  | [], v => (v, false)
  | s :: rest, v =>
    match find s with
    | .err => (v, true)
    | .missing => viewsLoop find rest v
    | .found e =>
      let v2 := parse_number (pyStripS e.text)
      if 0 < v2 then (v2, false) else viewsLoop find rest v2

/-- Views resolution of get_article_details: runs only while views is at
most 0; structured loop, then the scripted fallback while still at most
0 and not aborted. -/
def resolveViews (env : DetailEnv) (a : ArticleR) : ArticleR :=
  if a.views ≤ 0 then
    let vb := viewsLoop env.find view_count_selectors a.views
    let a1 := { a with views := vb.1 }
    if vb.2 then a1
    else if vb.1 ≤ 0 then
      if env.jsViews ≠ "" then { a1 with views := parse_number env.jsViews } else a1
    else a1
  else a

/-- Model of get_article_details: no-op on an empty url or a failed
navigation (the outer except returns the article unchanged), otherwise
the three per-field resolutions in order. -/
def get_article_details (env : DetailEnv) (a : ArticleR) : ArticleR :=
  if a.url = "" then a
  else if ¬env.navOk then a
  else resolveViews env (resolveBody env (resolveDate env a))

/-! Enrichment over a list (get_all_articles_details) and the crawl. -/

/-- Enrich a list elementwise from a given index, one detail environment
per article position. -/
def enrichFrom (envs : Nat → DetailEnv) : Nat → List ArticleR → List ArticleR
  | _, [] => []
  | i, a :: as => get_article_details (envs i) a :: enrichFrom envs (i + 1) as

/-- Number of records the cap lets the enrichment loop touch: the length
of the Python slice articles[:max]. -/
def capCount (maxArticles : Option Nat) (len : Nat) : Nat :=
  match maxArticles with
  | some m => min m len
  | none => len

/-- Model of get_all_articles_details: the slice articles[:max] (all of
them when no cap) is enriched in place, the rest untouched, and the same
list is returned. -/
def get_all_articles_details (envs : Nat → DetailEnv) (articles : List ArticleR)
    (maxArticles : Option Nat) : List ArticleR :=
  let n := capCount maxArticles articles.length
  enrichFrom envs 0 (articles.take n) ++ articles.drop n

/-- Pagination environment: per visited page number (starting at 1) the
listing-page environment, the has_next_page outcome (none models an
exception escaping it, which aborts extract_all_articles), and the
go_to_next_page result (that method catches its own errors). -/
structure CrawlEnv where
  pageEnv : Nat → PageEnv
  hasNext : Nat → Option Bool
  advance : Nat → Bool

/-- The page-cap side of the loop condition of extract_all_articles:
max_pages is None or page_count < max_pages. -/
def capOk (maxPages : Option Nat) (pc : Nat) : Bool :=
  match maxPages with
  | none => true
  | some n => decide (pc < n)

/-- The pagination loop of extract_all_articles.  fuel bounds the number
of iterations; with a page cap of n the loop body recurses fewer than n
times, so any fuel of at least n is exact.  Returns none when
has_next_page raised. -/
def crawlLoop (env : CrawlEnv) (maxPages : Option Nat) :
    Nat → Nat → List ArticleR → Option (List ArticleR × Nat)
  | 0, pc, acc => some (acc, pc)
  | fuel + 1, pc, acc =>
    (env.hasNext pc).bind (fun hn =>
      if hn && capOk maxPages pc then
        if env.advance pc then
          crawlLoop env maxPages fuel (pc + 1)
            (acc ++ extract_articles_from_current_page (env.pageEnv (pc + 1)))
        else some (acc, pc)
      else some (acc, pc))

/-- Model of extract_all_articles: extract page 1 unconditionally, then
loop.  The second component of the result is the final page_count. -/
def extract_all_articles (env : CrawlEnv) (maxPages : Option Nat) (fuel : Nat) :
    Option (List ArticleR × Nat) :=
  crawlLoop env maxPages fuel 1 (extract_articles_from_current_page (env.pageEnv 1))

/-! The orchestrator (scrape). -/

/-- Whole-crawl environment: browser setup success, the login and
navigation boolean results (both methods catch their own errors), the
pagination environment and one detail environment per enriched article
index. -/
structure ScrapeEnv where
  setupOk : Bool
  loginOk : Bool
  navOk : Bool
  crawl : CrawlEnv
  detailEnv : Nat → DetailEnv

/-- The body of the try block of scrape; error () models an exception
reaching the except branch of scrape (setup failure or an exception
escaping pagination). -/
def scrapeBody (env : ScrapeEnv) (get_details : Bool) (maxPages : Option Nat)
    (maxArticles : Option Nat) (fuel : Nat) : Except Unit (List ArticleR) :=
  if ¬env.setupOk then .error ()
  else if ¬env.loginOk then .ok []
  else if ¬env.navOk then .ok []
  else
    match extract_all_articles env.crawl maxPages fuel with
    | none => .error ()
    | some ap =>
      if get_details ∧ ap.1 ≠ [] then
        .ok (get_all_articles_details env.detailEnv ap.1 maxArticles)
      else .ok ap.1

/-- close(): quits the driver exactly when one was created; returns how
many times the capability is released. -/
def closeQuitCount (driverPresent : Bool) : Nat :=
  if driverPresent then 1 else 0

/-- Model of scrape: the try body, the except branch returning [], and the
finally branch releasing the capability on every path.  The driver exists
at close time exactly when setup succeeded.  Result: the returned record
list and the number of capability releases performed by close. -/
def scrape (env : ScrapeEnv) (get_details : Bool) (maxPages : Option Nat)
    (maxArticles : Option Nat) (fuel : Nat) : List ArticleR × Nat :=
  let body := scrapeBody env get_details maxPages maxArticles fuel
  (match body with | .ok l => l | .error _ => [], closeQuitCount env.setupOk)

/-! Derived predicates and concrete environments used by the theorems. -/

/-- The char-count invariant of the data model. -/
abbrev ccInv (a : ArticleR) : Prop := a.char_count = (a.text_content.length : Int)

/-- A string with no minus sign. -/
abbrev noDash (s : String) : Prop := '-' ∉ s.data

/-- Every raw count text a listing page can feed into the parser is free
of minus signs. -/
abbrev pageNoMinus (env : PageEnv) : Prop :=
  (∀ rs, env.jsRows = some rs →
    ∀ r ∈ rs, noDash r.views ∧ noDash r.likes ∧ noDash r.comments)
  ∧ (∀ fr ∈ env.frows, ∀ i s, fr.tds i = some s → noDash s)

/-- Every count text a detail page can feed into the parser is free of
minus signs. -/
abbrev detailNoMinus (env : DetailEnv) : Prop :=
  (∀ s e, env.find s = .found e → noDash e.text) ∧ noDash env.jsViews

/-- The ten decimal digit characters. -/
def digitChars : List Char := ['0','1','2','3','4','5','6','7','8','9']

/-- A listing row whose view-count text denotes a negative number. -/
def rowNeg : RawRow :=
  { title := "t", url := "u", published_at := "", views := "-5", likes := "0", comments := "0" }

/-- A listing page whose scripted tier returns the negative-view row. -/
def pageEnvNeg : PageEnv := { jsRows := some [rowNeg], tableFound := false, frows := [] }

/-- An ordinary listing row. -/
def rowOne : RawRow :=
  { title := "t1", url := "u1", published_at := "", views := "7", likes := "1", comments := "2" }

/-- A listing page whose scripted tier returns one ordinary row. -/
def pageEnvOne : PageEnv := { jsRows := some [rowOne], tableFound := false, frows := [] }

/-- The record extracted from rowOne. -/
def articleOne : ArticleR := rawRowToArticle rowOne

/-- A detail page where every selector misses and every scripted fallback
returns nothing. -/
def detailEnvMiss : DetailEnv :=
  { navOk := true, find := fun _ => .missing, jsDate := "", jsBody := "", jsViews := "" }

/-- A crawl whose first has_next_page call raises after page 1 was
extracted. -/
def crawlEnvAbort : CrawlEnv :=
  { pageEnv := fun _ => pageEnvOne, hasNext := fun _ => none, advance := fun _ => false }

/-- A scrape run that aborts with an exception during pagination. -/
def scrapeEnvAbort : ScrapeEnv :=
  { setupOk := true, loginOk := true, navOk := true, crawl := crawlEnvAbort,
    detailEnv := fun _ => detailEnvMiss }

/-- A single-page crawl that ends normally. -/
def crawlEnvOk : CrawlEnv :=
  { pageEnv := fun _ => pageEnvOne, hasNext := fun _ => some false, advance := fun _ => false }

/-- A scrape run that completes normally with one page. -/
def scrapeEnvOk : ScrapeEnv :=
  { setupOk := true, loginOk := true, navOk := true, crawl := crawlEnvOk,
    detailEnv := fun _ => detailEnvMiss }

/-- A scrape run whose login fails. -/
def scrapeEnvNoLogin : ScrapeEnv := { scrapeEnvOk with loginOk := false }

/-- A crawl where has_next_page keeps reporting true but advancing fails
immediately. -/
def crawlEnvAdvFail : CrawlEnv :=
  { pageEnv := fun _ => pageEnvOne, hasNext := fun _ => some true, advance := fun _ => false }

/-- A detail page satisfying only the scripted tier for all three fields,
with a view count of 450. -/
def env450 : DetailEnv :=
  { navOk := true, find := fun _ => .missing, jsDate := "2023-10-01",
    jsBody := "hello", jsViews := "450" }

/-- A record fresh from the listing with views still 0. -/
def art450 : ArticleR := mkArticle "t" "https://note.com/x" ""

/-- A record whose fields are already resolved: positive views, non-empty
body text. -/
def articleResolved : ArticleR :=
  { mkArticle "t" "u" "2023" with views := 5, text_content := "body", char_count := 4 }

/-! General list helpers. -/

theorem dropWhile_eq_self_of {α} (p : α → Bool) :
    ∀ (l : List α), (∀ c ∈ l, p c = false) → l.dropWhile p = l
  | [], _ => rfl
  | a :: l, h => by
    simp [List.dropWhile_cons, h a (List.mem_cons_self a l)]

theorem takeWhile_eq_self_of {α} (p : α → Bool) :
    ∀ (l : List α), (∀ c ∈ l, p c = true) → l.takeWhile p = l
  | [], _ => rfl
  | a :: l, h => by
    simp [List.takeWhile_cons, h a (List.mem_cons_self a l),
      takeWhile_eq_self_of p l (fun c hc => h c (List.mem_cons_of_mem a hc))]

theorem dropWhile_eq_nil_of {α} (p : α → Bool) :
    ∀ (l : List α), (∀ c ∈ l, p c = true) → l.dropWhile p = []
  | [], _ => rfl
  | a :: l, h => by
    simp [List.dropWhile_cons, h a (List.mem_cons_self a l),
      dropWhile_eq_nil_of p l (fun c hc => h c (List.mem_cons_of_mem a hc))]

theorem takeWhile_append_last {α} (p : α → Bool) (a : α) :
    ∀ (l : List α), (∀ c ∈ l, p c = true) → p a = false →
      (l ++ [a]).takeWhile p = l ∧ (l ++ [a]).dropWhile p = [a]
  | [], _, ha => by simp [List.takeWhile_cons, List.dropWhile_cons, ha]
  | b :: l, h, ha => by
    have hb := h b (List.mem_cons_self b l)
    have ih := takeWhile_append_last p a l (fun c hc => h c (List.mem_cons_of_mem b hc)) ha
    simp [List.takeWhile_cons, List.dropWhile_cons, hb, ih.1, ih.2]

theorem filter_eq_self_of {α} (p : α → Bool) (l : List α)
    (h : ∀ c ∈ l, p c = true) : l.filter p = l :=
  List.filter_eq_self.mpr h

theorem map_eq_self_of {α} (f : α → α) :
    ∀ (l : List α), (∀ c ∈ l, f c = c) → l.map f = l
  | [], _ => rfl
  | a :: l, h => by
    simp [h a (List.mem_cons_self a l),
      map_eq_self_of f l (fun c hc => h c (List.mem_cons_of_mem a hc))]

theorem mem_of_mem_dropWhile {α} {p : α → Bool} {a : α} {l : List α}
    (h : a ∈ l.dropWhile p) : a ∈ l :=
  (List.dropWhile_sublist p).mem h

theorem mem_of_mem_pyStrip {a : Char} {l : List Char}
    (h : a ∈ pyStrip l) : a ∈ l := by
  unfold pyStrip at h
  rw [List.mem_reverse] at h
  have h2 := mem_of_mem_dropWhile h
  rw [List.mem_reverse] at h2
  exact mem_of_mem_dropWhile h2

/-! Character facts for the numeric model. -/

theorem pyToLower_eq_dash {c : Char} (h : pyToLower c = '-') : c = '-' := by
  unfold pyToLower Char.toLower at h
  dsimp only at h
  split at h
  · exfalso
    rename_i hn
    have h2 := congrArg Char.toNat h
    obtain ⟨n, hn1, hn2, hval⟩ : ∃ n, 97 ≤ n ∧ n ≤ 122 ∧ c.toNat + 32 = n :=
      ⟨c.toNat + 32, by omega, by omega, rfl⟩
    rw [hval] at h2
    interval_cases n <;> exact absurd h2 (by decide)
  · exact h

theorem no_dash_map_pyToLower {l : List Char} (h : '-' ∉ l) :
    '-' ∉ l.map pyToLower := by
  intro hm
  obtain ⟨c, hc, he⟩ := List.mem_map.mp hm
  exact h (pyToLower_eq_dash he ▸ hc)

theorem no_dash_filter {p : Char → Bool} {l : List Char} (h : '-' ∉ l) :
    '-' ∉ l.filter p := by
  intro hm
  exact h (List.mem_filter.mp hm).1

/-! Non-negativity of the parser on minus-free input. -/

theorem pullSign_pos {cs : List Char} (h : '-' ∉ cs) : (pullSign cs).1 = 1 := by
  unfold pullSign
  split
  · rfl
  · exact absurd (List.mem_cons_self _ _) h
  · rfl

theorem floatParse_nonneg {cs : List Char} {me : Int × Int} (h : '-' ∉ cs)
    (hp : floatParse cs = some me) : 0 ≤ me.1 := by
  simp only [floatParse] at hp
  rw [pullSign_pos h] at hp
  simp only [one_mul] at hp
  split at hp
  · exact absurd hp (by simp)
  · split at hp
    · rw [← Option.some_inj.mp hp]
      exact Int.natCast_nonneg _
    · obtain ⟨ex, _, hpe⟩ := Option.map_eq_some'.mp hp
      rw [← hpe]
      exact Int.natCast_nonneg _
    · obtain ⟨ex, _, hpe⟩ := Option.map_eq_some'.mp hp
      rw [← hpe]
      exact Int.natCast_nonneg _
    · exact absurd hp (by simp)

theorem applyFloat_nonneg {mult : Int} {cs : List Char} (hm : 0 < mult)
    (h : '-' ∉ cs) : 0 ≤ applyFloat mult cs := by
  unfold applyFloat
  split
  · exact le_refl 0
  · rename_i me hme
    have h1 : 0 ≤ me.1 := floatParse_nonneg h hme
    have hv : 0 ≤ me.1 * mult := mul_nonneg h1 (le_of_lt hm)
    split
    · exact mul_nonneg hv (pow_nonneg (by norm_num) _)
    · exact Int.tdiv_nonneg hv (pow_nonneg (by norm_num) _)

theorem preprocess_mult_pos (text : String) : 0 < (preprocessNum text).1 := by
  simp only [preprocessNum]
  split
  · norm_num
  · split
    · norm_num
    · norm_num

theorem preprocess_no_dash {text : String} (h : '-' ∉ text.data) :
    '-' ∉ (preprocessNum text).2 := by
  simp only [preprocessNum]
  have h1 : '-' ∉ (pyStrip text.data).map pyToLower :=
    no_dash_map_pyToLower (fun hm => h (mem_of_mem_pyStrip hm))
  split
  · exact no_dash_filter (no_dash_filter h1)
  · split
    · exact no_dash_filter (no_dash_filter h1)
    · exact no_dash_filter h1

theorem parse_number_nonneg {text : String} (h : '-' ∉ text.data) :
    0 ≤ parse_number text := by
  unfold parse_number
  split
  · exact le_refl 0
  · exact applyFloat_nonneg (preprocess_mult_pos text) (preprocess_no_dash h)

/-! Evaluation of the parser on pure digit strings with a unit letter. -/

theorem digit_char_props : ∀ c ∈ digitChars,
    pyToLower c = c ∧ isPySpace c = false ∧ c.isDigit = true ∧
    c ≠ 'k' ∧ c ≠ 'm' ∧ c ≠ ',' ∧ c ≠ 'x' ∧ c ≠ '+' ∧ c ≠ '-' := by decide

theorem pyStrip_id_of (l : List Char) (h : ∀ c ∈ l, isPySpace c = false) :
    pyStrip l = l := by
  unfold pyStrip
  rw [dropWhile_eq_self_of _ _ h]
  rw [dropWhile_eq_self_of _ _ (fun c hc => h c (List.mem_reverse.mp hc))]
  exact List.reverse_reverse l

theorem pullSign_id {l : List Char} (h : ∀ c ∈ l, c ≠ '+' ∧ c ≠ '-') :
    pullSign l = (1, l) := by
  unfold pullSign
  split
  · exact absurd rfl (h '+' (List.mem_cons_self _ _)).1
  · exact absurd rfl (h '-' (List.mem_cons_self _ _)).2
  · rfl

theorem floatParse_digits (ds : List Char) (h1 : ds ≠ [])
    (hd : ∀ c ∈ ds, c.isDigit = true) (hs : ∀ c ∈ ds, c ≠ '+' ∧ c ≠ '-') :
    floatParse ds = some ((digitsToNat ds : Int), 0) := by
  simp only [floatParse]
  rw [pullSign_id hs]
  simp only [takeWhile_eq_self_of _ _ hd, dropWhile_eq_nil_of _ _ hd]
  simp [h1]

theorem floatParse_digits_x (ds : List Char) (h1 : ds ≠ [])
    (hd : ∀ c ∈ ds, c.isDigit = true) (hs : ∀ c ∈ ds, c ≠ '+' ∧ c ≠ '-') :
    floatParse (ds ++ ['x']) = none := by
  simp only [floatParse]
  rw [pullSign_id (by
    intro c hc
    rcases List.mem_append.mp hc with h | h
    · exact hs c h
    · simp at h; subst h; exact ⟨by decide, by decide⟩)]
  have ht := takeWhile_append_last Char.isDigit 'x' ds hd (by decide)
  simp only [ht.1, ht.2]
  simp [h1]

theorem applyFloat_digits (mult : Int) (ds : List Char) (h1 : ds ≠ [])
    (hd : ∀ c ∈ ds, c.isDigit = true) (hs : ∀ c ∈ ds, c ≠ '+' ∧ c ≠ '-') :
    applyFloat mult ds = (digitsToNat ds : Int) * mult := by
  simp only [applyFloat, floatParse_digits ds h1 hd hs]
  norm_num

theorem parse_number_mk (l : List Char) (h : l ≠ []) :
    parse_number ⟨l⟩ = applyFloat (preprocessNum ⟨l⟩).1 (preprocessNum ⟨l⟩).2 := by
  unfold parse_number
  rw [if_neg (fun he => h (congrArg String.data he))]

theorem preprocess_digits_k (ds : List Char) (h2 : ∀ c ∈ ds, c ∈ digitChars) :
    preprocessNum ⟨ds ++ ['k']⟩ = (1000, ds) := by
  have hstrip : pyStrip (ds ++ ['k']) = ds ++ ['k'] := by
    apply pyStrip_id_of
    intro c hc
    rcases List.mem_append.mp hc with h | h
    · exact (digit_char_props c (h2 c h)).2.1
    · simp at h; subst h; rfl
  have hlower : (ds ++ ['k']).map pyToLower = ds ++ ['k'] := by
    apply map_eq_self_of
    intro c hc
    rcases List.mem_append.mp hc with h | h
    · exact (digit_char_props c (h2 c h)).1
    · simp at h; subst h; rfl
  have hk : 'k' ∈ ds ++ ['k'] := List.mem_append.mpr (Or.inr (by simp))
  have hds : ds.filter (fun c => decide (c ≠ 'k')) = ds := by
    apply filter_eq_self_of
    intro c hc
    exact decide_eq_true (digit_char_props c (h2 c hc)).2.2.2.1
  have hfil : (ds ++ ['k']).filter (fun c => decide (c ≠ 'k')) = ds := by
    rw [List.filter_append, hds,
      show List.filter (fun c => decide (c ≠ 'k')) ['k'] = [] from rfl,
      List.append_nil]
  have hcomma : ds.filter (fun c => decide (c ≠ ',')) = ds := by
    apply filter_eq_self_of
    intro c hc
    exact decide_eq_true (digit_char_props c (h2 c hc)).2.2.2.2.2.1
  simp only [preprocessNum]
  rw [hstrip, hlower, if_pos hk, hfil]
  dsimp only
  rw [hcomma]

theorem preprocess_digits_k_pre (ds : List Char) (h2 : ∀ c ∈ ds, c ∈ digitChars) :
    preprocessNum ⟨'k' :: ds⟩ = (1000, ds) := by
  have hstrip : pyStrip ('k' :: ds) = 'k' :: ds := by
    apply pyStrip_id_of
    intro c hc
    rcases List.mem_cons.mp hc with h | h
    · subst h; rfl
    · exact (digit_char_props c (h2 c h)).2.1
  have hlower : ('k' :: ds).map pyToLower = 'k' :: ds := by
    apply map_eq_self_of
    intro c hc
    rcases List.mem_cons.mp hc with h | h
    · subst h; rfl
    · exact (digit_char_props c (h2 c h)).1
  have hk : 'k' ∈ 'k' :: ds := List.mem_cons_self _ _
  have hds : ds.filter (fun c => decide (c ≠ 'k')) = ds := by
    apply filter_eq_self_of
    intro c hc
    exact decide_eq_true (digit_char_props c (h2 c hc)).2.2.2.1
  have hfil : ('k' :: ds).filter (fun c => decide (c ≠ 'k')) = ds := by
    rw [show ('k' :: ds).filter (fun c => decide (c ≠ 'k'))
        = ds.filter (fun c => decide (c ≠ 'k')) from rfl, hds]
  have hcomma : ds.filter (fun c => decide (c ≠ ',')) = ds := by
    apply filter_eq_self_of
    intro c hc
    exact decide_eq_true (digit_char_props c (h2 c hc)).2.2.2.2.2.1
  simp only [preprocessNum]
  rw [hstrip, hlower, if_pos hk, hfil]
  dsimp only
  rw [hcomma]

theorem preprocess_digits_m (ds : List Char) (h2 : ∀ c ∈ ds, c ∈ digitChars) :
    preprocessNum ⟨ds ++ ['m']⟩ = (1000000, ds) := by
  have hstrip : pyStrip (ds ++ ['m']) = ds ++ ['m'] := by
    apply pyStrip_id_of
    intro c hc
    rcases List.mem_append.mp hc with h | h
    · exact (digit_char_props c (h2 c h)).2.1
    · simp at h; subst h; rfl
  have hlower : (ds ++ ['m']).map pyToLower = ds ++ ['m'] := by
    apply map_eq_self_of
    intro c hc
    rcases List.mem_append.mp hc with h | h
    · exact (digit_char_props c (h2 c h)).1
    · simp at h; subst h; rfl
  have hnk : 'k' ∉ ds ++ ['m'] := by
    intro hm
    rcases List.mem_append.mp hm with h | h
    · exact (digit_char_props 'k' (h2 'k' h)).2.2.2.1 rfl
    · simp at h
  have hm : 'm' ∈ ds ++ ['m'] := List.mem_append.mpr (Or.inr (by simp))
  have hds : ds.filter (fun c => decide (c ≠ 'm')) = ds := by
    apply filter_eq_self_of
    intro c hc
    exact decide_eq_true (digit_char_props c (h2 c hc)).2.2.2.2.1
  have hfil : (ds ++ ['m']).filter (fun c => decide (c ≠ 'm')) = ds := by
    rw [List.filter_append, hds,
      show List.filter (fun c => decide (c ≠ 'm')) ['m'] = [] from rfl,
      List.append_nil]
  have hcomma : ds.filter (fun c => decide (c ≠ ',')) = ds := by
    apply filter_eq_self_of
    intro c hc
    exact decide_eq_true (digit_char_props c (h2 c hc)).2.2.2.2.2.1
  simp only [preprocessNum]
  rw [hstrip, hlower, if_neg hnk, if_pos hm, hfil]
  dsimp only
  rw [hcomma]

theorem preprocess_digits_x (ds : List Char) (h2 : ∀ c ∈ ds, c ∈ digitChars) :
    preprocessNum ⟨ds ++ ['x']⟩ = (1, ds ++ ['x']) := by
  have hstrip : pyStrip (ds ++ ['x']) = ds ++ ['x'] := by
    apply pyStrip_id_of
    intro c hc
    rcases List.mem_append.mp hc with h | h
    · exact (digit_char_props c (h2 c h)).2.1
    · simp at h; subst h; rfl
  have hlower : (ds ++ ['x']).map pyToLower = ds ++ ['x'] := by
    apply map_eq_self_of
    intro c hc
    rcases List.mem_append.mp hc with h | h
    · exact (digit_char_props c (h2 c h)).1
    · simp at h; subst h; rfl
  have hnk : 'k' ∉ ds ++ ['x'] := by
    intro hm
    rcases List.mem_append.mp hm with h | h
    · exact (digit_char_props 'k' (h2 'k' h)).2.2.2.1 rfl
    · simp at h
  have hnm : 'm' ∉ ds ++ ['x'] := by
    intro hm
    rcases List.mem_append.mp hm with h | h
    · exact (digit_char_props 'm' (h2 'm' h)).2.2.2.2.1 rfl
    · simp at h
  have hcomma : (ds ++ ['x']).filter (fun c => decide (c ≠ ',')) = ds ++ ['x'] := by
    apply filter_eq_self_of
    intro c hc
    rcases List.mem_append.mp hc with h | h
    · exact decide_eq_true (digit_char_props c (h2 c h)).2.2.2.2.2.1
    · simp at h; subst h; exact decide_eq_true (by decide)
  simp only [preprocessNum]
  rw [hstrip, hlower, if_neg hnk, if_neg hnm]
  dsimp only
  rw [hcomma]

/-! Claim theorems C8 and C3. -/

/-- C8: the six reference equalities of parseCount hold of _parse_number:
empty input, thousands separators, the k and m suffixes, non-numeric text
and the plain zero all behave as specified. -/
theorem c8_parse_count_reference_values :
    parse_number "" = 0 ∧ parse_number "1,234" = 1234 ∧
    parse_number "1.2k" = 1200 ∧ parse_number "3m" = 3000000 ∧
    parse_number "abc" = 0 ∧ parse_number "0" = 0 := by decide

/-- C3 counterexample: the claim requires that a leading (non-trailing) k
yields a parse failure and 0, but _parse_number detects k anywhere in the
text, so the input with a leading k gets the 1000 multiplier. -/
theorem c3_counterexample_leading_k :
    parse_number "k1" = 1000 ∧ parse_number "k1" ≠ 0 := by decide

/-- C3 amended: the k and m unit letters act wherever they occur in the
text, not only as a trailing suffix: for every non-empty digit string d,
parsing d followed by k, or k followed by d, gives 1000 times the digit
value; d followed by m gives 1000000 times it; and a remainder that is
not numeric (digits followed by the letter x) parses to 0. -/
theorem c3_k_m_multiplier_anywhere (ds : List Char) (h1 : ds ≠ [])
    (h2 : ∀ c ∈ ds, c ∈ digitChars) :
    parse_number ⟨ds ++ ['k']⟩ = 1000 * (digitsToNat ds : Int) ∧
    parse_number ⟨'k' :: ds⟩ = 1000 * (digitsToNat ds : Int) ∧
    parse_number ⟨ds ++ ['m']⟩ = 1000000 * (digitsToNat ds : Int) ∧
    parse_number ⟨ds ++ ['x']⟩ = 0 := by
  have hd : ∀ c ∈ ds, c.isDigit = true :=
    fun c hc => (digit_char_props c (h2 c hc)).2.2.1
  have hs : ∀ c ∈ ds, c ≠ '+' ∧ c ≠ '-' :=
    fun c hc => ⟨(digit_char_props c (h2 c hc)).2.2.2.2.2.2.2.1,
      (digit_char_props c (h2 c hc)).2.2.2.2.2.2.2.2⟩
  refine ⟨?_, ?_, ?_, ?_⟩
  · rw [parse_number_mk _ (by simp), preprocess_digits_k ds h2]
    rw [applyFloat_digits 1000 ds h1 hd hs]
    ring
  · rw [parse_number_mk _ (by simp), preprocess_digits_k_pre ds h2]
    rw [applyFloat_digits 1000 ds h1 hd hs]
    ring
  · rw [parse_number_mk _ (by simp), preprocess_digits_m ds h2]
    rw [applyFloat_digits 1000000 ds h1 hd hs]
    ring
  · rw [parse_number_mk _ (by simp), preprocess_digits_x ds h2]
    unfold applyFloat
    rw [floatParse_digits_x ds h1 hd hs]

/-- C3 witness: the amended statement evaluated on the digit string 45. -/
theorem c3_k_m_multiplier_anywhere_witness :
    parse_number ⟨['4','5'] ++ ['k']⟩ = 1000 * (digitsToNat ['4','5'] : Int) ∧
    parse_number ⟨'k' :: ['4','5']⟩ = 1000 * (digitsToNat ['4','5'] : Int) ∧
    parse_number ⟨['4','5'] ++ ['m']⟩ = 1000000 * (digitsToNat ['4','5'] : Int) ∧
    parse_number ⟨['4','5'] ++ ['x']⟩ = 0 :=
  c3_k_m_multiplier_anywhere ['4','5'] (by decide) (by decide)

/-! Shape lemmas for the three per-field resolvers: each one touches only
its own fields of the record. -/

theorem resolveDate_shape (env : DetailEnv) (a : ArticleR) :
    ∃ p, resolveDate env a = { a with published_at := p } := by
  unfold resolveDate
  split
  · exact ⟨a.published_at, rfl⟩
  · exact ⟨_, rfl⟩
  · split
    · split
      · exact ⟨env.jsDate, rfl⟩
      · exact ⟨a.published_at, rfl⟩
    · exact ⟨a.published_at, rfl⟩

theorem resolveBody_shape (env : DetailEnv) (a : ArticleR) :
    resolveBody env a = a ∨
      ∃ t, resolveBody env a =
        { a with text_content := t, char_count := (t.length : Int) } := by
  simp only [resolveBody, bodyJs]
  split
  · exact Or.inl rfl
  · split
    · split
      · exact Or.inr ⟨env.jsBody, rfl⟩
      · exact Or.inr ⟨_, rfl⟩
    · exact Or.inr ⟨_, rfl⟩
  · split
    · split
      · exact Or.inr ⟨env.jsBody, rfl⟩
      · exact Or.inl rfl
    · exact Or.inl rfl

theorem resolveViews_shape (env : DetailEnv) (a : ArticleR) :
    ∃ v, resolveViews env a = { a with views := v } := by
  simp only [resolveViews]
  split
  · split
    · exact ⟨_, rfl⟩
    · split
      · split
        · exact ⟨_, rfl⟩
        · exact ⟨_, rfl⟩
      · exact ⟨_, rfl⟩
  · exact ⟨a.views, rfl⟩

theorem resolveViews_of_pos (env : DetailEnv) (a : ArticleR) (h : 0 < a.views) :
    resolveViews env a = a := by
  unfold resolveViews
  rw [if_neg (by omega)]

/-- The fields the detail enricher never writes. -/
theorem details_frame (env : DetailEnv) (a : ArticleR) :
    (get_article_details env a).title = a.title ∧
    (get_article_details env a).url = a.url ∧
    (get_article_details env a).likes = a.likes ∧
    (get_article_details env a).comments = a.comments := by
  unfold get_article_details
  split
  · exact ⟨rfl, rfl, rfl, rfl⟩
  · split
    · exact ⟨rfl, rfl, rfl, rfl⟩
    · obtain ⟨p, hp⟩ := resolveDate_shape env a
      obtain ⟨v, hv⟩ := resolveViews_shape env (resolveBody env (resolveDate env a))
      rw [hv]
      obtain hb | ⟨t, ht⟩ := resolveBody_shape env (resolveDate env a)
      · rw [hb, hp]
        exact ⟨rfl, rfl, rfl, rfl⟩
      · rw [ht, hp]
        exact ⟨rfl, rfl, rfl, rfl⟩

theorem details_views_of_pos (env : DetailEnv) (a : ArticleR) (h : 0 < a.views) :
    (get_article_details env a).views = a.views := by
  unfold get_article_details
  split
  · rfl
  · split
    · rfl
    · obtain ⟨p, hp⟩ := resolveDate_shape env a
      obtain hb | ⟨t, ht⟩ := resolveBody_shape env (resolveDate env a)
      · have hbv : (resolveBody env (resolveDate env a)).views = a.views := by
          rw [hb, hp]
        rw [resolveViews_of_pos _ _ (by rw [hbv]; exact h), hbv]
      · have hbv : (resolveBody env (resolveDate env a)).views = a.views := by
          rw [ht, hp]
        rw [resolveViews_of_pos _ _ (by rw [hbv]; exact h), hbv]

theorem details_ccInv (env : DetailEnv) (a : ArticleR) (h : ccInv a) :
    ccInv (get_article_details env a) := by
  unfold get_article_details
  split
  · exact h
  · split
    · exact h
    · obtain ⟨p, hp⟩ := resolveDate_shape env a
      obtain ⟨v, hv⟩ := resolveViews_shape env (resolveBody env (resolveDate env a))
      rw [hv]
      obtain hb | ⟨t, ht⟩ := resolveBody_shape env (resolveDate env a)
      · rw [hb, hp]
        exact h
      · rw [ht, hp]

/-! Claim theorems C4 and C5. -/

/-- C4: char_count equals the length of text_content at record creation
and the detail enricher preserves that equality through every outcome of
body-text resolution, because it always sets the two fields together. -/
theorem c4_char_count_sync :
    (∀ t u p, ccInv (mkArticle t u p)) ∧
    (∀ env a, ccInv a → ccInv (get_article_details env a)) :=
  ⟨fun _ _ _ => rfl, details_ccInv⟩

/-- C4 witness: the invariant holds on a concrete fresh record and is kept
by a concrete enrichment run. -/
theorem c4_char_count_sync_witness :
    ccInv (mkArticle "t" "u" "") ∧
    ccInv (get_article_details detailEnvMiss art450) :=
  ⟨c4_char_count_sync.1 "t" "u" "",
   c4_char_count_sync.2 detailEnvMiss art450 (by decide)⟩

/-- C5: re-running detail enrichment never rewrites title or url on any
record, and a record entering with positive views keeps exactly that views
value (the views block only runs while views is at most 0). -/
theorem c5_enrichment_idempotent_fields (env : DetailEnv) (a : ArticleR) :
    (get_article_details env a).title = a.title ∧
    (get_article_details env a).url = a.url ∧
    (0 < a.views → (get_article_details env a).views = a.views) :=
  ⟨(details_frame env a).1, (details_frame env a).2.1,
   fun h => details_views_of_pos env a h⟩

/-- C5 witness: a fully resolved record (views 5) passes through a
concrete enrichment run with title, url and views intact. -/
theorem c5_enrichment_idempotent_fields_witness :
    (get_article_details detailEnvMiss articleResolved).title = articleResolved.title ∧
    (get_article_details detailEnvMiss articleResolved).url = articleResolved.url ∧
    (get_article_details detailEnvMiss articleResolved).views = articleResolved.views :=
  ⟨(c5_enrichment_idempotent_fields detailEnvMiss articleResolved).1,
   (c5_enrichment_idempotent_fields detailEnvMiss articleResolved).2.1,
   (c5_enrichment_idempotent_fields detailEnvMiss articleResolved).2.2 (by decide)⟩

/-! All-miss loop evaluations for C7. -/

theorem dateLoop_all_missing (find : String → FindRes) :
    ∀ (l : List String), (∀ s ∈ l, find s = .missing) →
      dateLoop find l = some none
  | [], _ => rfl
  | s :: rest, h => by
    unfold dateLoop
    rw [h s (List.mem_cons_self _ _)]
    exact dateLoop_all_missing find rest (fun x hx => h x (List.mem_cons_of_mem s hx))

theorem bodyLoop_all_missing (find : String → FindRes) :
    ∀ (l : List String), (∀ s ∈ l, find s = .missing) →
      bodyLoop find l = some none
  | [], _ => rfl
  | s :: rest, h => by
    unfold bodyLoop
    rw [h s (List.mem_cons_self _ _)]
    exact bodyLoop_all_missing find rest (fun x hx => h x (List.mem_cons_of_mem s hx))

theorem viewsLoop_all_missing (find : String → FindRes) :
    ∀ (l : List String) (v : Int), (∀ s ∈ l, find s = .missing) →
      viewsLoop find l v = (v, false)
  | [], _, _ => rfl
  | s :: rest, v, h => by
    unfold viewsLoop
    rw [h s (List.mem_cons_self _ _)]
    exact viewsLoop_all_missing find rest v (fun x hx => h x (List.mem_cons_of_mem s hx))

theorem resolveDate_all_missing (env : DetailEnv) (a : ArticleR)
    (hd : ∀ s ∈ publication_date_selectors, env.find s = .missing)
    (hpa : a.published_at = "") (hjd : env.jsDate ≠ "") :
    resolveDate env a = { a with published_at := env.jsDate } := by
  unfold resolveDate
  rw [dateLoop_all_missing env.find publication_date_selectors hd, if_pos hpa, if_pos hjd]

theorem resolveBody_all_missing (env : DetailEnv) (a : ArticleR)
    (hb : ∀ s ∈ article_body_selectors, env.find s = .missing)
    (htc : a.text_content = "") (hjb : env.jsBody ≠ "") :
    resolveBody env a = { a with text_content := env.jsBody, char_count := (env.jsBody.length : Int) } := by
  unfold resolveBody bodyJs
  rw [bodyLoop_all_missing env.find article_body_selectors hb, if_pos htc, if_pos hjb]

theorem resolveViews_all_missing (env : DetailEnv) (a : ArticleR)
    (hv : ∀ s ∈ view_count_selectors, env.find s = .missing)
    (hviews : a.views ≤ 0) (hjv : env.jsViews ≠ "") :
    resolveViews env a = { a with views := parse_number env.jsViews } := by
  unfold resolveViews
  rw [if_pos hviews, viewsLoop_all_missing env.find view_count_selectors a.views hv]
  dsimp only
  rw [if_pos hviews, if_pos hjv]
  simp

/-- C7: when every structured candidate misses on all three fields and
each scripted fallback returns a value, the final record carries exactly
the scripted values: date and body verbatim (with char_count set to the
body length) and views as the parse of the scripted count text - never
the stale defaults. -/
theorem c7_scripted_tier_wins (env : DetailEnv) (a : ArticleR)
    (hurl : a.url ≠ "") (hnav : env.navOk = true)
    (hd : ∀ s ∈ publication_date_selectors, env.find s = .missing)
    (hb : ∀ s ∈ article_body_selectors, env.find s = .missing)
    (hv : ∀ s ∈ view_count_selectors, env.find s = .missing)
    (hpa : a.published_at = "") (htc : a.text_content = "") (hviews : a.views ≤ 0)
    (hjd : env.jsDate ≠ "") (hjb : env.jsBody ≠ "") (hjv : env.jsViews ≠ "") :
    (get_article_details env a).published_at = env.jsDate ∧
    (get_article_details env a).text_content = env.jsBody ∧
    (get_article_details env a).char_count = (env.jsBody.length : Int) ∧
    (get_article_details env a).views = parse_number env.jsViews := by
  unfold get_article_details
  rw [if_neg hurl, if_neg (not_not_intro hnav)]
  rw [resolveDate_all_missing env a hd hpa hjd]
  rw [resolveBody_all_missing env { a with published_at := env.jsDate } hb htc hjb]
  rw [resolveViews_all_missing env { a with published_at := env.jsDate, text_content := env.jsBody, char_count := (env.jsBody.length : Int) } hv hviews hjv]
  exact ⟨rfl, rfl, rfl, rfl⟩

/-! Non-negativity through the views loop and the whole enrichment. -/

theorem viewsLoop_nonneg (find : String → FindRes)
    (hfind : ∀ s e, find s = .found e → noDash e.text) :
    ∀ (l : List String) (v : Int), 0 ≤ v → 0 ≤ (viewsLoop find l v).1
  | [], _, hv => hv
  | s :: rest, v, hv => by
    unfold viewsLoop
    cases hf : find s with
    | err => exact hv
    | missing => exact viewsLoop_nonneg find hfind rest v hv
    | found e =>
      have hnd : '-' ∉ (pyStripS e.text).data :=
        fun hm => hfind s e hf (mem_of_mem_pyStrip hm)
      have hpn : 0 ≤ parse_number (pyStripS e.text) := parse_number_nonneg hnd
      dsimp only
      split
      · exact hpn
      · exact viewsLoop_nonneg find hfind rest _ hpn

theorem resolveViews_nonneg (env : DetailEnv) (a : ArticleR)
    (henv : detailNoMinus env) (ha : 0 ≤ a.views) :
    0 ≤ (resolveViews env a).views := by
  have hvl := viewsLoop_nonneg env.find henv.1 view_count_selectors a.views ha
  unfold resolveViews
  split
  · dsimp only
    split
    · exact hvl
    · split
      · split
        · exact parse_number_nonneg henv.2
        · exact hvl
      · exact hvl
  · exact ha

theorem details_nonneg (env : DetailEnv) (a : ArticleR) (henv : detailNoMinus env)
    (hv : 0 ≤ a.views) (hl : 0 ≤ a.likes) (hc : 0 ≤ a.comments)
    (hcc : 0 ≤ a.char_count) :
    0 ≤ (get_article_details env a).views ∧ 0 ≤ (get_article_details env a).likes ∧
    0 ≤ (get_article_details env a).comments ∧
    0 ≤ (get_article_details env a).char_count := by
  unfold get_article_details
  split
  · exact ⟨hv, hl, hc, hcc⟩
  · split
    · exact ⟨hv, hl, hc, hcc⟩
    · obtain ⟨p, hp⟩ := resolveDate_shape env a
      have hBv : (resolveBody env (resolveDate env a)).views = a.views := by
        obtain hb | ⟨t, ht⟩ := resolveBody_shape env (resolveDate env a)
        · rw [hb, hp]
        · rw [ht, hp]
      have hBl : (resolveBody env (resolveDate env a)).likes = a.likes := by
        obtain hb | ⟨t, ht⟩ := resolveBody_shape env (resolveDate env a)
        · rw [hb, hp]
        · rw [ht, hp]
      have hBc : (resolveBody env (resolveDate env a)).comments = a.comments := by
        obtain hb | ⟨t, ht⟩ := resolveBody_shape env (resolveDate env a)
        · rw [hb, hp]
        · rw [ht, hp]
      have hBcc : 0 ≤ (resolveBody env (resolveDate env a)).char_count := by
        obtain hb | ⟨t, ht⟩ := resolveBody_shape env (resolveDate env a)
        · rw [hb, hp]
          exact hcc
        · rw [ht]
          exact Int.natCast_nonneg _
      obtain ⟨w, hw⟩ := resolveViews_shape env (resolveBody env (resolveDate env a))
      refine ⟨resolveViews_nonneg env _ henv (by rw [hBv]; exact hv), ?_, ?_, ?_⟩
      · rw [hw]
        dsimp only
        rw [hBl]
        exact hl
      · rw [hw]
        dsimp only
        rw [hBc]
        exact hc
      · rw [hw]
        dsimp only
        exact hBcc

/-! Field facts for freshly extracted records. -/

theorem extract_fields (env : PageEnv) (hnm : pageNoMinus env) :
    ∀ a ∈ extract_articles_from_current_page env,
      (0 ≤ a.views ∧ 0 ≤ a.likes ∧ 0 ≤ a.comments ∧ 0 ≤ a.char_count) ∧ ccInv a := by
  intro a ha
  unfold extract_articles_from_current_page at ha
  split at ha
  · exact absurd ha (List.not_mem_nil a)
  · next r rs heq =>
      obtain ⟨r', hr', rfl⟩ := List.mem_map.mp ha
      have hnd := hnm.1 _ heq r' hr'
      exact ⟨⟨parse_number_nonneg hnd.1, parse_number_nonneg hnd.2.1,
        parse_number_nonneg hnd.2.2, le_refl 0⟩, rfl⟩
  · split at ha
    · obtain ⟨fr, hfr, hfa⟩ := List.mem_filterMap.mp ha
      unfold frowToArticle at hfa
      split at hfa
      · exact absurd hfa (by simp)
      · next t heqt =>
          obtain rfl := Option.some_inj.mp hfa
          refine ⟨⟨?_, ?_, ?_, le_refl 0⟩, rfl⟩
          · dsimp only
            cases ht : fr.tds 3 with
            | none => exact le_refl 0
            | some s => exact parse_number_nonneg (hnm.2 fr hfr 3 s ht)
          · dsimp only
            cases ht : fr.tds 4 with
            | none => exact le_refl 0
            | some s => exact parse_number_nonneg (hnm.2 fr hfr 4 s ht)
          · dsimp only
            cases ht : fr.tds 5 with
            | none => exact le_refl 0
            | some s => exact parse_number_nonneg (hnm.2 fr hfr 5 s ht)
    · exact absurd ha (List.not_mem_nil a)

theorem extract_ccInv (env : PageEnv) :
    ∀ a ∈ extract_articles_from_current_page env, ccInv a := by
  intro a ha
  unfold extract_articles_from_current_page at ha
  split at ha
  · exact absurd ha (List.not_mem_nil a)
  · obtain ⟨r', _, rfl⟩ := List.mem_map.mp ha
    rfl
  · split at ha
    · obtain ⟨fr, hfr, hfa⟩ := List.mem_filterMap.mp ha
      unfold frowToArticle at hfa
      split at hfa
      · exact absurd hfa (by simp)
      · obtain rfl := Option.some_inj.mp hfa
        rfl
    · exact absurd ha (List.not_mem_nil a)

/-! Claim theorems C1. -/

/-- C1 counterexample: the claim asserts non-negative numeric fields for
every possible page text, but a listing whose raw view-count text is the
string minus five produces a record with views equal to minus five. -/
theorem c1_counterexample_negative_views :
    (extract_articles_from_current_page pageEnvNeg).map ArticleR.views = [-5] ∧
    ((-5 : Int) < 0) := by decide

/-- C1 amended: char_count is always non-negative and a failed numeric
parse yields 0; views, likes and comments are non-negative at creation and
stay so through listing extraction and detail enrichment provided no raw
count text contains a minus sign (a minus-signed count text is parsed to a
negative value). -/
theorem c1_nonneg_fields :
    (∀ t : String, '-' ∉ t.data → 0 ≤ parse_number t) ∧
    (∀ t : String, floatParse (preprocessNum t).2 = none → parse_number t = 0) ∧
    (∀ t u p, (mkArticle t u p).views = 0 ∧ (mkArticle t u p).likes = 0 ∧
      (mkArticle t u p).comments = 0 ∧ (mkArticle t u p).char_count = 0) ∧
    (∀ env : PageEnv, pageNoMinus env →
      ∀ a ∈ extract_articles_from_current_page env,
        0 ≤ a.views ∧ 0 ≤ a.likes ∧ 0 ≤ a.comments ∧ 0 ≤ a.char_count) ∧
    (∀ (env : DetailEnv) (a : ArticleR), detailNoMinus env →
      0 ≤ a.views → 0 ≤ a.likes → 0 ≤ a.comments → 0 ≤ a.char_count →
        0 ≤ (get_article_details env a).views ∧
        0 ≤ (get_article_details env a).likes ∧
        0 ≤ (get_article_details env a).comments ∧
        0 ≤ (get_article_details env a).char_count) := by
  refine ⟨fun t h => parse_number_nonneg h, ?_, fun t u p => ⟨rfl, rfl, rfl, rfl⟩,
    fun env h a ha => (extract_fields env h a ha).1,
    fun env a henv hv hl hc hcc => details_nonneg env a henv hv hl hc hcc⟩
  intro t hfp
  unfold parse_number
  split
  · rfl
  · unfold applyFloat
    dsimp only
    rw [hfp]

/-- C1 witness: the amended statement evaluated on a concrete parser
input, a concrete listing page and a concrete enrichment run. -/
theorem c1_nonneg_fields_witness :
    0 ≤ parse_number "7" ∧ parse_number "abc7" = 0 ∧
    (0 ≤ articleOne.views ∧ 0 ≤ articleOne.likes ∧ 0 ≤ articleOne.comments ∧
      0 ≤ articleOne.char_count) ∧
    (0 ≤ (get_article_details detailEnvMiss articleOne).views ∧
      0 ≤ (get_article_details detailEnvMiss articleOne).likes ∧
      0 ≤ (get_article_details detailEnvMiss articleOne).comments ∧
      0 ≤ (get_article_details detailEnvMiss articleOne).char_count) :=
  ⟨c1_nonneg_fields.1 "7" (by decide),
   c1_nonneg_fields.2.1 "abc7" (by decide),
   c1_nonneg_fields.2.2.2.1 pageEnvOne
     ⟨fun rs h => by injection h with h2; subst h2; decide,
      fun fr hfr => absurd hfr (List.not_mem_nil fr)⟩
     articleOne (by decide),
   c1_nonneg_fields.2.2.2.2 detailEnvMiss articleOne
     ⟨(fun s e h => nomatch h), by decide⟩
     (by decide) (by decide) (by decide) (by decide)⟩

/-- C7 witness: scenario C - a record with views 0 whose detail page
satisfies only the scripted tier ends with views 450 and the scripted
date and body. -/
theorem c7_scripted_tier_wins_witness :
    (get_article_details env450 art450).published_at = env450.jsDate ∧
    (get_article_details env450 art450).text_content = env450.jsBody ∧
    (get_article_details env450 art450).char_count = (env450.jsBody.length : Int) ∧
    (get_article_details env450 art450).views = parse_number env450.jsViews ∧
    parse_number "450" = 450 :=
  ⟨(c7_scripted_tier_wins env450 art450 (by decide) rfl
      (by intro s _; rfl) (by intro s _; rfl) (by intro s _; rfl)
      rfl rfl (by decide) (by decide) (by decide) (by decide)).1,
   (c7_scripted_tier_wins env450 art450 (by decide) rfl
      (by intro s _; rfl) (by intro s _; rfl) (by intro s _; rfl)
      rfl rfl (by decide) (by decide) (by decide) (by decide)).2.1,
   (c7_scripted_tier_wins env450 art450 (by decide) rfl
      (by intro s _; rfl) (by intro s _; rfl) (by intro s _; rfl)
      rfl rfl (by decide) (by decide) (by decide) (by decide)).2.2.1,
   (c7_scripted_tier_wins env450 art450 (by decide) rfl
      (by intro s _; rfl) (by intro s _; rfl) (by intro s _; rfl)
      rfl rfl (by decide) (by decide) (by decide) (by decide)).2.2.2,
   by decide⟩

/-! Pagination loop bounds for C6. -/

theorem crawlLoop_pc_le (env : CrawlEnv) (n : Nat) :
    ∀ (fuel pc : Nat) (acc : List ArticleR) (r : List ArticleR × Nat),
      pc ≤ n → crawlLoop env (some n) fuel pc acc = some r → r.2 ≤ n
  | 0, pc, acc, r, hpc, hcl => by
    unfold crawlLoop at hcl
    obtain rfl := Option.some_inj.mp hcl
    exact hpc
  | fuel + 1, pc, acc, r, hpc, hcl => by
    unfold crawlLoop at hcl
    cases hhn : env.hasNext pc with
    | none =>
      rw [hhn] at hcl
      exact absurd hcl (by simp)
    | some hn =>
      rw [hhn] at hcl
      dsimp only [Option.bind] at hcl
      split at hcl
      · next hcond =>
          split at hcl
          · have hcap : capOk (some n) pc = true := by
              have h2 := hcond
              rw [Bool.and_eq_true] at h2
              exact h2.2
            simp only [capOk] at hcap
            have hlt : pc < n := of_decide_eq_true hcap
            exact crawlLoop_pc_le env n fuel (pc + 1) _ r (by omega) hcl
          · obtain rfl := Option.some_inj.mp hcl
            exact hpc
      · obtain rfl := Option.some_inj.mp hcl
        exact hpc

/-- C6 counterexample: with a page cap of 0 the crawl still visits and
extracts the first listing page (the initial extraction happens before
the cap is consulted), so more than 0 pages are extracted. -/
theorem c6_counterexample_cap_zero :
    extract_all_articles crawlEnvOk (some 0) 3 = some ([articleOne], 1) ∧
    extract_articles_from_current_page (crawlEnvOk.pageEnv 1) ≠ [] ∧
    ¬((1 : Nat) ≤ 0) := by decide

/-- C6 amended: for a positive page cap n the crawl extracts at most n
listing pages for every sequence of hasNext and advance outcomes (with a
cap of 0 it still extracts the unconditional first page), and the loop
stops after the first page when advancing fails even though hasNext keeps
reporting true. -/
theorem c6_page_cap (env : CrawlEnv) (n fuel : Nat) (r : List ArticleR × Nat) :
    (1 ≤ n → extract_all_articles env (some n) fuel = some r → r.2 ≤ n) ∧
    (1 ≤ fuel → env.hasNext 1 = some true → env.advance 1 = false →
      extract_all_articles env (some n) fuel =
        some (extract_articles_from_current_page (env.pageEnv 1), 1)) := by
  constructor
  · intro hn hcl
    exact crawlLoop_pc_le env n fuel 1 _ r hn hcl
  · intro hfuel hhn hadv
    unfold extract_all_articles
    cases fuel with
    | zero => omega
    | succ f =>
      unfold crawlLoop
      rw [hhn]
      dsimp only [Option.bind]
      by_cases hlt : 1 < n
      · rw [if_pos (by simp [capOk, hlt]), if_neg (by simp [hadv])]
      · rw [if_neg (by simp [capOk, hlt])]

/-- C6 witness: a crawl with cap 3 where hasNext stays true but the first
advance fails extracts exactly the first page, within the bound. -/
theorem c6_page_cap_witness :
    extract_all_articles crawlEnvAdvFail (some 3) 5 =
      some (extract_articles_from_current_page (crawlEnvAdvFail.pageEnv 1), 1) ∧
    (extract_articles_from_current_page (crawlEnvAdvFail.pageEnv 1), 1).2 ≤ 3 := by
  have h := (c6_page_cap crawlEnvAdvFail 3 5
    (extract_articles_from_current_page (crawlEnvAdvFail.pageEnv 1), 1)).2
    (by decide) rfl rfl
  exact ⟨h, (c6_page_cap crawlEnvAdvFail 3 5
    (extract_articles_from_current_page (crawlEnvAdvFail.pageEnv 1), 1)).1 (by decide) h⟩

/-! Char-count preservation along the whole crawl for C2. -/

theorem crawlLoop_ccInv (env : CrawlEnv) (mp : Option Nat) :
    ∀ (fuel pc : Nat) (acc : List ArticleR) (r : List ArticleR × Nat),
      (∀ a ∈ acc, ccInv a) → crawlLoop env mp fuel pc acc = some r →
      ∀ a ∈ r.1, ccInv a
  | 0, pc, acc, r, hacc, hcl => by
    unfold crawlLoop at hcl
    obtain rfl := Option.some_inj.mp hcl
    exact hacc
  | fuel + 1, pc, acc, r, hacc, hcl => by
    unfold crawlLoop at hcl
    cases hhn : env.hasNext pc with
    | none =>
      rw [hhn] at hcl
      exact absurd hcl (by simp)
    | some hn =>
      rw [hhn] at hcl
      dsimp only [Option.bind] at hcl
      split at hcl
      · split at hcl
        · refine crawlLoop_ccInv env mp fuel (pc + 1) _ r ?_ hcl
          intro a ha
          rcases List.mem_append.mp ha with h | h
          · exact hacc a h
          · exact extract_ccInv _ a h
        · obtain rfl := Option.some_inj.mp hcl
          exact hacc
      · obtain rfl := Option.some_inj.mp hcl
        exact hacc

theorem extract_all_ccInv (env : CrawlEnv) (mp : Option Nat) (fuel : Nat)
    (r : List ArticleR × Nat) (h : extract_all_articles env mp fuel = some r) :
    ∀ a ∈ r.1, ccInv a :=
  crawlLoop_ccInv env mp fuel 1 _ r (extract_ccInv (env.pageEnv 1)) h

theorem enrichFrom_ccInv (envs : Nat → DetailEnv) :
    ∀ (i : Nat) (l : List ArticleR), (∀ b ∈ l, ccInv b) →
      ∀ a ∈ enrichFrom envs i l, ccInv a
  | _, [], _, a, ha => absurd ha (List.not_mem_nil a)
  | i, b :: bs, hl, a, ha => by
    unfold enrichFrom at ha
    rcases List.mem_cons.mp ha with h | h
    · subst h
      exact details_ccInv _ _ (hl b (List.mem_cons_self _ _))
    · exact enrichFrom_ccInv envs (i + 1) bs
        (fun x hx => hl x (List.mem_cons_of_mem _ hx)) a h

theorem get_all_details_ccInv (envs : Nat → DetailEnv) (l : List ArticleR)
    (ma : Option Nat) (hl : ∀ b ∈ l, ccInv b) :
    ∀ a ∈ get_all_articles_details envs l ma, ccInv a := by
  intro a ha
  unfold get_all_articles_details at ha
  rcases List.mem_append.mp ha with h | h
  · exact enrichFrom_ccInv envs 0 _ (fun b hb => hl b (List.mem_of_mem_take hb)) a h
  · exact hl a ((List.drop_sublist _ _).mem h)

/-! Case lemmas about the body of scrape. -/

theorem scrapeBody_of_abort (env : ScrapeEnv) (gd : Bool) (mp ma : Option Nat)
    (fuel : Nat) (hnone : extract_all_articles env.crawl mp fuel = none) :
    scrapeBody env gd mp ma fuel = .error () ∨
    scrapeBody env gd mp ma fuel = .ok [] := by
  unfold scrapeBody
  split
  · exact Or.inl rfl
  · split
    · exact Or.inr rfl
    · split
      · exact Or.inr rfl
      · refine Or.inl ?_
        rw [hnone]

theorem scrapeBody_of_login_failure (env : ScrapeEnv) (gd : Bool) (mp ma : Option Nat)
    (fuel : Nat) (hlog : env.loginOk = false) :
    scrapeBody env gd mp ma fuel = .error () ∨
    scrapeBody env gd mp ma fuel = .ok [] := by
  unfold scrapeBody
  split
  · exact Or.inl rfl
  · refine Or.inr ?_
    rw [if_pos (by simp [hlog])]

theorem scrapeBody_of_success (env : ScrapeEnv) (gd : Bool) (mp ma : Option Nat)
    (fuel : Nat) (arts : List ArticleR) (pc : Nat)
    (hset : env.setupOk = true) (hlog : env.loginOk = true) (hnav : env.navOk = true)
    (hsome : extract_all_articles env.crawl mp fuel = some (arts, pc)) :
    scrapeBody env gd mp ma fuel =
      .ok (if gd ∧ arts ≠ [] then get_all_articles_details env.detailEnv arts ma
           else arts) := by
  unfold scrapeBody
  rw [if_neg (by simp [hset]), if_neg (by simp [hlog]), if_neg (by simp [hnav]), hsome]
  dsimp only
  split
  · rfl
  · rfl

/-! Claim theorems C2 and C9. -/

/-- C2 counterexample: a full listing page is collected, then the next
has_next_page call raises; the claim requires scrape to return the
collected page, but scrape returns the empty list. -/
theorem c2_counterexample_abort_discards :
    extract_articles_from_current_page (scrapeEnvAbort.crawl.pageEnv 1) = [articleOne] ∧
    ([articleOne] : List ArticleR) ≠ [] ∧
    (scrape scrapeEnvAbort true none none 5).1 = [] := by decide

/-- C2 amended: when an exception escapes pagination, scrape returns the
empty list, discarding the records collected before the abort; when no
exception escapes, it returns exactly the collected (and optionally
enriched) records; and every record it returns satisfies the char-count
invariant of the data model. -/
theorem c2_abort_returns_empty (env : ScrapeEnv) (gd : Bool) (mp ma : Option Nat)
    (fuel : Nat) :
    (∀ a ∈ (scrape env gd mp ma fuel).1, ccInv a) ∧
    (extract_all_articles env.crawl mp fuel = none → (scrape env gd mp ma fuel).1 = []) ∧
    (∀ arts pc, env.setupOk = true → env.loginOk = true → env.navOk = true →
      extract_all_articles env.crawl mp fuel = some (arts, pc) →
      (scrape env gd mp ma fuel).1 =
        if gd ∧ arts ≠ [] then get_all_articles_details env.detailEnv arts ma
        else arts) := by
  refine ⟨?_, ?_, ?_⟩
  · intro a ha
    have hsc : (scrape env gd mp ma fuel).1 =
        match scrapeBody env gd mp ma fuel with | .ok l => l | .error _ => [] := rfl
    rw [hsc] at ha
    cases hsb : scrapeBody env gd mp ma fuel with
    | error e =>
      rw [hsb] at ha
      exact absurd ha (List.not_mem_nil a)
    | ok l =>
      rw [hsb] at ha
      dsimp only at ha
      unfold scrapeBody at hsb
      split at hsb
      · exact absurd hsb (by simp)
      · split at hsb
        · injection hsb with h
          subst h
          exact absurd ha (List.not_mem_nil a)
        · split at hsb
          · injection hsb with h
            subst h
            exact absurd ha (List.not_mem_nil a)
          · split at hsb
            · exact absurd hsb (by simp)
            · next ap hap =>
                split at hsb
                · injection hsb with h
                  subst h
                  exact get_all_details_ccInv env.detailEnv ap.1 ma
                    (extract_all_ccInv env.crawl mp fuel ap hap) a ha
                · injection hsb with h
                  subst h
                  exact extract_all_ccInv env.crawl mp fuel ap hap a ha
  · intro hnone
    show (match scrapeBody env gd mp ma fuel with | .ok l => l | .error _ => []) = []
    rcases scrapeBody_of_abort env gd mp ma fuel hnone with h | h
    · rw [h]
    · rw [h]
  · intro arts pc hset hlog hnav hsome
    show (match scrapeBody env gd mp ma fuel with | .ok l => l | .error _ => []) = _
    rw [scrapeBody_of_success env gd mp ma fuel arts pc hset hlog hnav hsome]

/-- C2 witness: the amended statement evaluated on the aborting run (the
collected page is discarded) and on a normal run (its record keeps the
invariant). -/
theorem c2_abort_returns_empty_witness :
    (scrape scrapeEnvAbort true none none 5).1 = [] ∧ ccInv articleOne :=
  ⟨(c2_abort_returns_empty scrapeEnvAbort true none none 5).2.1 (by decide),
   (c2_abort_returns_empty scrapeEnvOk true none none 5).1 articleOne (by decide)⟩

/-- C9: when authentication fails scrape returns the empty list, and the
page-automation capability is released exactly once whenever it was
acquired - on every exit path, normal or exceptional - and never more
than once. -/
theorem c9_capability_release (env : ScrapeEnv) (gd : Bool) (mp ma : Option Nat)
    (fuel : Nat) :
    (env.loginOk = false → (scrape env gd mp ma fuel).1 = []) ∧
    (env.setupOk = true → (scrape env gd mp ma fuel).2 = 1) ∧
    (scrape env gd mp ma fuel).2 ≤ 1 := by
  refine ⟨?_, ?_, ?_⟩
  · intro hlog
    show (match scrapeBody env gd mp ma fuel with | .ok l => l | .error _ => []) = []
    rcases scrapeBody_of_login_failure env gd mp ma fuel hlog with h | h
    · rw [h]
    · rw [h]
  · intro hset
    show closeQuitCount env.setupOk = 1
    unfold closeQuitCount
    rw [if_pos hset]
  · show closeQuitCount env.setupOk ≤ 1
    unfold closeQuitCount
    split
    · exact le_refl 1
    · omega

/-- C9 witness: a concrete failed login returns no records and releases
the capability exactly once. -/
theorem c9_capability_release_witness :
    (scrape scrapeEnvNoLogin true none none 5).1 = [] ∧
    (scrape scrapeEnvNoLogin true none none 5).2 = 1 :=
  ⟨(c9_capability_release scrapeEnvNoLogin true none none 5).1 rfl,
   (c9_capability_release scrapeEnvNoLogin true none none 5).2.1 rfl⟩

/-! Index-level characterization of the enrichment pass for C10. -/

theorem enrichFrom_length (envs : Nat → DetailEnv) :
    ∀ (i : Nat) (l : List ArticleR), (enrichFrom envs i l).length = l.length
  | _, [] => rfl
  | i, a :: as => by
    unfold enrichFrom
    simp [enrichFrom_length envs (i + 1) as]

theorem enrichFrom_get? (envs : Nat → DetailEnv) :
    ∀ (l : List ArticleR) (k i : Nat),
      (enrichFrom envs k l).get? i =
        (l.get? i).map (fun a => get_article_details (envs (k + i)) a)
  | [], k, i => by simp [enrichFrom]
  | a :: as, k, 0 => by simp [enrichFrom]
  | a :: as, k, i + 1 => by
    unfold enrichFrom
    show (enrichFrom envs (k + 1) as).get? i = _
    rw [enrichFrom_get? envs as (k + 1) i]
    have hidx : k + 1 + i = k + (i + 1) := by omega
    rw [hidx]
    rfl

theorem capCount_le (ma : Option Nat) (len : Nat) : capCount ma len ≤ len := by
  unfold capCount
  split
  · exact Nat.min_le_right _ _
  · exact le_refl len

/-- C10: get_all_articles_details keeps the length and order of its input
list, every position at or beyond the cap is returned untouched, and each
position below the cap (all of them when no cap is given) holds exactly
the enrichment of the input record at that position. -/
theorem c10_enrichment_frame (envs : Nat → DetailEnv) (articles : List ArticleR)
    (ma : Option Nat) :
    (get_all_articles_details envs articles ma).length = articles.length ∧
    ∀ i : Nat, (get_all_articles_details envs articles ma).get? i =
      (if i < capCount ma articles.length
       then (articles.get? i).map (fun a => get_article_details (envs i) a)
       else articles.get? i) := by
  have hn : capCount ma articles.length ≤ articles.length := capCount_le ma articles.length
  have hlen_take : (articles.take (capCount ma articles.length)).length =
      capCount ma articles.length := by
    rw [List.length_take]
    omega
  constructor
  · unfold get_all_articles_details
    rw [List.length_append, enrichFrom_length, hlen_take, List.length_drop]
    omega
  · intro i
    unfold get_all_articles_details
    by_cases hi : i < capCount ma articles.length
    · rw [if_pos hi]
      rw [List.get?_append (by rw [enrichFrom_length, hlen_take]; exact hi)]
      rw [enrichFrom_get? envs _ 0 i]
      rw [List.get?_take hi]
      simp
    · rw [if_neg hi]
      rw [List.get?_append_right (by rw [enrichFrom_length, hlen_take]; omega)]
      rw [List.get?_drop, enrichFrom_length, hlen_take]
      have hidx : capCount ma articles.length +
          (i - capCount ma articles.length) = i := by omega
      rw [hidx]

end NoteScraper
